import Mathlib

/-!
Verification of the `npytools` command-line utility (file `npytools.py`).

The development shallowly embeds the program's pure core:

* `_sizeof`  — the human-readable size formatter (decimal 1000-based prefixes);
* `_tabulate` — the bordered text-table renderer;
* `_array_info_table` — the metadata/statistics table builder;
* `npyshowRun` — the per-path loop of the `npyshow` command;
* `npyplotActions` — the dimension-based dispatch of the `npyplot` command.

Python floats are modelled by exact rationals (`ℚ`): all the arithmetic the
program performs on the values of interest (integer byte counts divided by
1000, decimal rounding to one or three digits) stays far away from the
granularity at which IEEE-754 doubles diverge from exact arithmetic, except
at exact decimal ties, which none of the statements below touch.
`"%.1f"` / `"%.3e"` formatting is modelled by round-half-even decimal
rounding of the exact value, which is what C `printf` performs on the
(here exactly represented) double.  Fallible code (Python exceptions:
`max()` of an empty sequence, `min()` of an empty array, division by zero)
is modelled with `Option`, `none` standing for a raised exception.
-/

/-! ## Size formatter (`_sizeof`, npytools.py lines 63–68) -/

/-- Round-half-even of a rational to an integer: the rounding `printf`
applies to the exactly-represented value when formatting. -/
def rhe (q : ℚ) : ℤ :=
  if q - ⌊q⌋ < 1/2 then ⌊q⌋
  else if 1/2 < q - ⌊q⌋ then ⌊q⌋ + 1
  else if ⌊q⌋ % 2 = 0 then ⌊q⌋ else ⌊q⌋ + 1

/-- Render a natural number of tenths as a fixed-point decimal with one
fractional digit: `8000 ↦ "800.0"`. -/
def natFmt1 (m : ℕ) : String :=
  toString (m / 10) ++ "." ++ toString (m % 10)

/-- Model of Python `"%.1f" % q`: one fractional decimal digit,
round-half-even. -/
def fmt1 (q : ℚ) : String :=
  let n := rhe (10 * q)
  if n < 0 then "-" ++ natFmt1 (-n).toNat else natFmt1 n.toNat

/-- The loop body of `_sizeof`: walk the unit list, returning as soon as the
magnitude drops below 1000, dividing by 1000 otherwise; when the list is
exhausted fall back to the `Y` prefix. -/
def sizeofGo (s : String) : ℚ → List String → String
  | num, [] => fmt1 num ++ "Y" ++ s
  | num, u :: rest =>
    if |num| < 1000 then fmt1 num ++ u ++ s else sizeofGo s (num / 1000) rest

/-- Embedding of `_sizeof(num, suffix='')` (npytools.py lines 63–68). -/
def _sizeof (num : ℚ) (suffix : String := "") : String :=
  sizeofGo suffix num ["", "K", "M", "G", "T", "P", "E", "Z"]

/-- The rational value denoted by the one-decimal string `fmt1 q` produces:
the rounded tenths divided by ten. -/
def rendered1 (q : ℚ) : ℚ := (rhe (10 * q) : ℚ) / 10

/-! ## Table renderer (`_tabulate`, npytools.py lines 71–79) -/

/-- Python `max(len(str(x)) for ...)` over a list of strings (meaningful only
for non-empty lists; `_tabulate` guards the empty case). -/
def maxLen (l : List String) : ℕ :=
  l.foldl (fun m s => max m s.length) 0

/-- Python `'{0: <w}'.format s`: left-justify by padding with spaces up to
width `w` (no truncation). -/
def padRight (s : String) (w : ℕ) : String :=
  s ++ String.mk (List.replicate (w - s.length) ' ')

/-- One rendered table row `| label | value |` with columns padded to widths
`a` and `b`. -/
def rowLine (a b : ℕ) (p : String × String) : String :=
  "| " ++ padRight p.1 a ++ " | " ++ padRight p.2 b ++ " |"

/-- The border line `+---...-+---...-+` of the rendered table. -/
def borderLine (a b : ℕ) : String :=
  "+" ++ String.mk (List.replicate (a + 2) '-') ++ "+" ++
    String.mk (List.replicate (b + 2) '-') ++ "+"

/-- Python `'\n'.join`. -/
def joinLines : List String → String
  | [] => ""
  | [l] => l
  | l :: ls => l ++ "\n" ++ joinLines ls

/-- Embedding of `_tabulate(table)` (npytools.py lines 71–79).  The values of
the table rows are already stringified (the builder produces strings).
Python's `max()` raises `ValueError` on an empty table, modelled by `none`. -/
def _tabulate (table : List (String × String)) : Option String :=
  match table with
  | [] => none
  | _ :: _ =>
    some (joinLines
      (borderLine (maxLen (table.map Prod.fst)) (maxLen (table.map Prod.snd)) ::
        (table.map (rowLine (maxLen (table.map Prod.fst)) (maxLen (table.map Prod.snd))) ++
          [borderLine (maxLen (table.map Prod.fst)) (maxLen (table.map Prod.snd))])))

/-- Split a character list at newline characters (the segments a terminal
displays as separate lines). -/
def splitNl : List Char → List (List Char)
  | [] => [[]]
  | c :: rest =>
    if c = '\n' then [] :: splitNl rest
    else
      match splitNl rest with
      | [] => [[c]]
      | h :: t => (c :: h) :: t

/-- The displayed lines of a string: its newline-separated segments. -/
def linesOf (s : String) : List String :=
  (splitNl s.data).map String.mk

/-! ## Array model and the info-table builder
(`_array_info_table`, npytools.py lines 82–103) -/

/-- A floating-point array element: a finite value (exact rational standing
for the double), NaN, or a signed infinity. -/
inductive NVal where
  | fin (q : ℚ)
  | nan
  | pinf
  | ninf
deriving DecidableEq

/-- `numpy.isnan` on one element. -/
def nvIsNaN : NVal → Bool
  | .nan => true
  | _ => false

/-- `numpy.isinf` on one element. -/
def nvIsInf : NVal → Bool
  | .pinf => true
  | .ninf => true
  | _ => false

/-- Nonzero test, as counted by `numpy.count_nonzero` (NaN and infinities are
nonzero). -/
def nvNonzero : NVal → Bool
  | .fin q => decide (q ≠ 0)
  | _ => true

/-- IEEE comparison used for ordering non-NaN elements:
`-inf < finite < +inf` (NaN, excluded by the callers, sorts last as numpy
sorts it). -/
def nvLe : NVal → NVal → Bool
  | .ninf, _ => true
  | _, .nan => true
  | .fin a, .fin b => decide (a ≤ b)
  | .fin _, .pinf => true
  | .pinf, .pinf => true
  | _, _ => false

/-- IEEE addition on elements (`+inf + -inf = nan`, NaN propagates). -/
def nvAdd : NVal → NVal → NVal
  | .fin a, .fin b => .fin (a + b)
  | .nan, _ => .nan
  | _, .nan => .nan
  | .pinf, .ninf => .nan
  | .ninf, .pinf => .nan
  | .pinf, _ => .pinf
  | _, .pinf => .pinf
  | .ninf, _ => .ninf
  | _, .ninf => .ninf

/-- Division of an element by a positive count (for the mean). -/
def nvDivNat (v : NVal) (n : ℕ) : NVal :=
  match v with
  | .fin q => .fin (q / n)
  | v => v

/-- Halving an element (for the even-length median). -/
def nvHalf (v : NVal) : NVal := nvDivNat v 2

/-- `ndarray.min()` of a non-empty list (the empty case raises in numpy and
is guarded by the builder; the `[]` equation is unreachable there). -/
def nvMin : List NVal → NVal
  | [] => .nan
  | x :: xs => xs.foldl (fun a b => if nvLe a b then a else b) x

/-- `ndarray.max()` of a non-empty list (empty case unreachable, see
`nvMin`). -/
def nvMax : List NVal → NVal
  | [] => .nan
  | x :: xs => xs.foldl (fun a b => if nvLe b a then a else b) x

/-- Sum of the elements (for the mean). -/
def nvSum (l : List NVal) : NVal := l.foldl nvAdd (.fin 0)

/-- `ndarray.mean()` : sum divided by the element count. -/
def nvMean (l : List NVal) : NVal := nvDivNat (nvSum l) l.length

/-- Insert into a list sorted by `nvLe`. -/
def nvInsert (x : NVal) : List NVal → List NVal
  | [] => [x]
  | y :: ys => if nvLe x y then x :: y :: ys else y :: nvInsert x ys

/-- Sort by `nvLe` (insertion sort; any correct sort gives the same result
on NaN-free input since `nvLe` is total and antisymmetric there). -/
def nvSort : List NVal → List NVal
  | [] => []
  | x :: xs => nvInsert x (nvSort xs)

/-- `numpy.median` : middle element of the sorted list, or the average of
the two middle elements for even length. -/
def nvMedian (l : List NVal) : NVal :=
  let s := nvSort l
  let k := l.length
  if k % 2 = 1 then s.getD (k / 2) .nan
  else nvHalf (nvAdd (s.getD (k / 2 - 1) .nan) (s.getD (k / 2) .nan))

/-- Python `str` of an `int` tuple: `"(10, 10)"`, with the one-element form
`"(10,)"`. -/
def tupleStr : List ℕ → String
  | [] => "()"
  | [n] => "(" ++ toString n ++ ",)"
  | ns => "(" ++ String.intercalate ", " (ns.map toString) ++ ")"

/-- An array handle as `npyshow` sees it: shape, dtype name, per-element
byte size, the elements in row-major order, and the string numpy prints for
it.  `hsize` is numpy's invariant `len(data) = prod(shape)`. -/
structure NpyArr where
  shape : List ℕ
  dtypeName : String
  itemsize : ℕ
  data : List NVal
  reprStr : String
  hsize : data.length = shape.prod

/-- `ndarray.size` : the element count. -/
def NpyArr.size (arr : NpyArr) : ℕ := arr.shape.prod

/-- Count of zero elements: `size - np.count_nonzero(arr)`. -/
def nvCountZero (arr : NpyArr) : ℕ :=
  arr.size - (arr.data.filter nvNonzero).length

/-- Count of NaN elements: `np.isnan(arr).sum()`. -/
def nvCountNaN (arr : NpyArr) : ℕ := (arr.data.filter nvIsNaN).length

/-- Count of infinite elements: `np.isinf(arr).sum()`. -/
def nvCountInf (arr : NpyArr) : ℕ := (arr.data.filter nvIsInf).length

/-- Number of digits of the decimal exponent `⌊log10 q⌋` of a positive
rational, computed from the digit counts of numerator and denominator. -/
def decExp (q : ℚ) : ℤ :=
  let a : ℤ := (Nat.log 10 q.num.natAbs : ℤ) - (Nat.log 10 q.den : ℤ)
  if (10:ℚ) ^ (a + 1) ≤ |q| then a + 1
  else if (10:ℚ) ^ a ≤ |q| then a else a - 1

/-- Zero-pad a natural number below 1000 to three digits. -/
def pad3 (k : ℕ) : String :=
  if k < 10 then "00" ++ toString k
  else if k < 100 then "0" ++ toString k
  else toString k

/-- Zero-pad a natural number to at least two digits. -/
def pad2 (k : ℕ) : String :=
  if k < 10 then "0" ++ toString k else toString k

/-- Scientific rendering of a positive rational with three fractional
digits: mantissa in `[1, 10)` rounded half-even, exponent with sign and at
least two digits. -/
def sci3 (q : ℚ) : String :=
  let e := decExp q
  let m := (rhe (q / (10:ℚ) ^ e * 1000)).toNat
  let em := if m = 10000 then (e + 1, 1000) else (e, m)
  toString (em.2 / 1000) ++ "." ++ pad3 (em.2 % 1000) ++ "e" ++
    (if em.1 < 0 then "-" else "+") ++ pad2 em.1.natAbs

/-- Model of Python `"%.3e" % v` on a float value. -/
def fmt3e : NVal → String
  | .nan => "nan"
  | .pinf => "inf"
  | .ninf => "-inf"
  | .fin q =>
    if q = 0 then "0.000e+00"
    else if q < 0 then "-" ++ sci3 (-q) else sci3 q

/-- The four always-present rows of the info table (shape, dtype, filesize,
size), npytools.py lines 84–89. -/
def baseTable (arr : NpyArr) : List (String × String) :=
  [("shape", tupleStr arr.shape),
   ("dtype", arr.dtypeName),
   ("filesize", _sizeof ((arr.size * arr.itemsize : ℕ) : ℚ)),
   ("size", toString arr.size)]

/-- Embedding of `_array_info_table(arr, show_stats)` (npytools.py lines
82–103).  When statistics are requested and the array has no non-NaN
element, `nonnan.min()` raises in numpy; that is the `none` case. -/
def _array_info_table (arr : NpyArr) (show_stats : Bool) :
    Option (List (String × String)) :=
  if show_stats then
    match arr.data.filter (fun v => !(nvIsNaN v)) with
    | [] => none
    | x :: xs =>
      some (baseTable arr ++
        [("min", fmt3e (nvMin (x :: xs))),
         ("mean", fmt3e (nvMean (x :: xs))),
         ("median", fmt3e (nvMedian (x :: xs))),
         ("max", fmt3e (nvMax (x :: xs))),
         ("zero", toString (nvCountZero arr) ++ " (" ++
            toString (100 * nvCountZero arr / arr.size) ++ "%)"),
         ("nan", toString (nvCountNaN arr) ++ " (" ++
            toString (100 * nvCountNaN arr / arr.size) ++ "%)"),
         ("inf", toString (nvCountInf arr))])
  else some (baseTable arr)

/-! ## The `npyshow` command (npytools.py lines 110–131) -/

/-- Python `path.endswith(suffix)` as a character-list suffix test. -/
def pathEndsWith (path suf : String) : Bool :=
  suf.data.isSuffixOf path.data

/-- The options of `npyshow`: `-n`, `--show-array`, `--show-stats`. -/
structure ShowOpts where
  n : ℕ
  showArray : Bool
  showStats : Bool

/-- The lines `npyshow` emits for one already-matched path: the loop body of
npytools.py lines 125–131 (load, build table — which may raise —, echo the
path, echo the rendered table, optionally echo the array).  `none` models an
exception aborting the command. -/
def perFileLines (o : ShowOpts) (f : String × NpyArr) : Option (List String) :=
  (_array_info_table f.2 o.showStats).bind fun t =>
    (_tabulate t).map fun rendered =>
      [f.1, rendered] ++ (if o.showArray then [f.2.reprStr] else [])

/-- The `npyshow` per-path loop (npytools.py lines 122–131) over a list of
(path, array-the-path-loads) pairs: returns the emitted lines and whether
the loop ran to completion (`false` means an exception aborted it; files not
ending in `.npy` are skipped without being loaded). -/
def npyshowRun (o : ShowOpts) : List (String × NpyArr) → List String × Bool
  | [] => ([], true)
  | f :: rest =>
    if pathEndsWith f.1 ".npy" then
      match perFileLines o f with
      | none => ([], false)
      | some ls =>
        let r := npyshowRun o rest
        (ls ++ r.1, r.2)
    else npyshowRun o rest

/-! ## The `npyplot` command (npytools.py lines 137–161) -/

/-- The plotting calls `npyplot` can issue on its axes object, with the data
each call receives. -/
inductive PlotAction where
  | line1D (ys : List NVal)
  | xyPlot (xs ys : List NVal)
  | multiSeries (cols : List (List NVal))
  | image2D (rows : List (List NVal))
  | image3D (shape : List ℕ)
deriving DecidableEq

/-- Column `j` of the row-major `(len/m, m)` reshape of the data. -/
def col (m j : ℕ) (data : List NVal) : List NVal :=
  (List.range (data.length / m)).map (fun i => data.getD (i * m + j) (.fin 0))

/-- The rows of the row-major `(len/m, m)` reshape of the data. -/
def asRows (m : ℕ) (data : List NVal) : List (List NVal) :=
  (List.range (data.length / m)).map
    (fun i => (List.range m).map (fun j => data.getD (i * m + j) (.fin 0)))

/-- Embedding of the dispatch of `npyplot` (npytools.py lines 145–159):
squeeze the loaded array, then branch on its rank; for rank 2 reshape to
`(M, m)` with `m = min(shape)` and note the `if / if-else` structure of
lines 151–156: the `m == 2` branch does not exclude the following
`if 3 <= m <= 5 / else`.  The rank-3 image render is recorded with the
squeezed shape (its pixel content is produced by the external plotting
library and is outside this model). -/
def npyplotActions (shape : List ℕ) (data : List NVal) : List PlotAction :=
  let s := shape.filter (fun d => d ≠ 1)
  if s.length = 1 then [.line1D data]
  else if s.length = 2 then
    let m := min (s.getD 0 0) (s.getD 1 0)
    (if m = 2 then [.xyPlot (col m 0 data) (col m 1 data)] else []) ++
      (if 3 ≤ m ∧ m ≤ 5 then
        [.multiSeries ((List.range m).map (fun j => col m j data))]
      else [.image2D (asRows m data)])
  else if s.length = 3 then [.image3D s]
  else []

/-! ## Supporting lemmas: size formatter -/

theorem sizeofGo_cons_lt (s : String) (num : ℚ) (u : String) (rest : List String)
    (h : |num| < 1000) : sizeofGo s num (u :: rest) = fmt1 num ++ u ++ s := by
  rw [sizeofGo, if_pos h]

theorem sizeofGo_cons_ge (s : String) (num : ℚ) (u : String) (rest : List String)
    (h : ¬ |num| < 1000) :
    sizeofGo s num (u :: rest) = sizeofGo s (num / 1000) rest := by
  rw [sizeofGo, if_neg h]

theorem empty_data : ("" : String).data = [] := rfl

theorem fmt1_natCast (b : ℕ) : fmt1 (b : ℚ) = toString b ++ ".0" := by
  have h1 : (10 : ℚ) * (b : ℚ) = ((10 * b : ℕ) : ℚ) := by push_cast; ring
  have h2 : rhe ((10 * b : ℕ) : ℚ) = ((10 * b : ℕ) : ℤ) := by
    unfold rhe
    rw [Int.floor_natCast]
    norm_num
  simp only [fmt1, h1, h2]
  rw [if_neg (not_lt.2 (Int.natCast_nonneg _)), Int.toNat_natCast]
  unfold natFmt1
  rw [Nat.mul_div_cancel_left b (by norm_num : 0 < 10), Nat.mul_mod_right]
  apply String.ext
  simp only [String.data_append, List.append_assoc, List.append_cancel_left_eq]
  decide

/-- Byte counts below 1000 are formatted on the first loop iteration, with
the empty unit prefix. -/
theorem sizeof_small (b : ℕ) (hb : b < 1000) (s : String) :
    _sizeof (b : ℚ) s = toString b ++ ".0" ++ s := by
  have habs : |(b : ℚ)| < 1000 := by
    rw [abs_of_nonneg (by positivity)]
    exact_mod_cast hb
  unfold _sizeof
  rw [sizeofGo_cons_lt _ _ _ _ habs, fmt1_natCast]
  apply String.ext
  simp [String.data_append, empty_data]

/-- C4: for every byte count b below 1000 the Size Formatter returns
`"<b>.0"` with no unit prefix (and the given suffix appended). -/
theorem claim_C4 (b : ℕ) (hb : b < 1000) (s : String) :
    _sizeof (b : ℚ) s = toString b ++ ".0" ++ s :=
  sizeof_small b hb s

/-- Witness for C4 at b = 999. -/
theorem claim_C4_witness :
    (999 : ℕ) < 1000 ∧ _sizeof ((999 : ℕ) : ℚ) "" = toString (999 : ℕ) ++ ".0" ++ "" :=
  ⟨by norm_num, claim_C4 999 (by norm_num) ""⟩

theorem sizeofGo_saturate (s : String) (units : List String) :
    ∀ num : ℚ, (1000 : ℚ) ^ units.length ≤ num →
      sizeofGo s num units = fmt1 (num / 1000 ^ units.length) ++ "Y" ++ s := by
  induction units with
  | nil =>
    intro num h
    simp [sizeofGo]
  | cons u rest ih =>
    intro num h
    have hnum : (1000 : ℚ) ≤ num := by
      calc (1000 : ℚ) = 1000 ^ 1 := (pow_one _).symm
        _ ≤ 1000 ^ (u :: rest).length := by
            apply pow_le_pow_right₀ (by norm_num)
            simp
        _ ≤ num := h
    have habs : ¬ |num| < 1000 := not_lt.2 (le_trans hnum (le_abs_self _))
    rw [sizeofGo_cons_ge _ _ _ _ habs]
    have hrec : (1000 : ℚ) ^ rest.length ≤ num / 1000 := by
      rw [le_div_iff₀ (by norm_num : (0 : ℚ) < 1000)]
      calc (1000 : ℚ) ^ rest.length * 1000 = 1000 ^ (rest.length + 1) := by ring
        _ = 1000 ^ (u :: rest).length := by simp
        _ ≤ num := h
    rw [ih (num / 1000) hrec]
    congr 2
    rw [div_div]
    congr 1
    simp [pow_succ]
    ring

/-- C5: the Size Formatter is total on non-negative inputs (it is a total
function of the embedding, so the returned string always exists), and for
every input at or beyond the Z range (at least 1000^8) it returns the
one-decimal rendering of input/1000^8 with the `Y` suffix and no further
scaling. -/
theorem claim_C5 (q : ℚ) (s : String) (h0 : 0 ≤ q) :
    (∃ out, _sizeof q s = out) ∧
      ((1000 : ℚ) ^ 8 ≤ q → _sizeof q s = fmt1 (q / 1000 ^ 8) ++ "Y" ++ s) := by
  refine ⟨⟨_, rfl⟩, fun h => ?_⟩
  have h8 : (["", "K", "M", "G", "T", "P", "E", "Z"] : List String).length = 8 := rfl
  have := sizeofGo_saturate s ["", "K", "M", "G", "T", "P", "E", "Z"] q (by rw [h8]; exact h)
  rw [h8] at this
  simpa [_sizeof] using this

/-- Witness for C5 at input 1000^8. -/
theorem claim_C5_witness :
    (0 : ℚ) ≤ 1000 ^ 8 ∧
      ((∃ out, _sizeof ((1000 : ℚ) ^ 8) "" = out) ∧
        ((1000 : ℚ) ^ 8 ≤ 1000 ^ 8 →
          _sizeof ((1000 : ℚ) ^ 8) "" = fmt1 ((1000 : ℚ) ^ 8 / 1000 ^ 8) ++ "Y" ++ "")) :=
  ⟨by positivity, claim_C5 _ "" (by positivity)⟩

theorem floor_le_rhe (q : ℚ) : ⌊q⌋ ≤ rhe q := by
  unfold rhe
  split_ifs <;> omega

theorem rhe_le_floor_add_one (q : ℚ) : rhe q ≤ ⌊q⌋ + 1 := by
  unfold rhe
  split_ifs <;> omega

/-- For byte counts in the K range the formatter returns after exactly one
division, with the `K` unit. -/
theorem sizeof_midK (b : ℕ) (h1 : 1000 ≤ b) (h2 : b < 1000000) (s : String) :
    _sizeof (b : ℚ) s = fmt1 ((b : ℚ) / 1000) ++ "K" ++ s := by
  have hb1 : (1000 : ℚ) ≤ (b : ℚ) := by exact_mod_cast h1
  have hb2 : (b : ℚ) < 1000000 := by exact_mod_cast h2
  unfold _sizeof
  rw [sizeofGo_cons_ge _ _ _ _ (not_lt.2 (le_trans hb1 (le_abs_self _)))]
  rw [sizeofGo_cons_lt]
  rw [abs_of_nonneg (by positivity)]
  rw [div_lt_iff₀ (by norm_num : (0 : ℚ) < 1000)]
  linarith

/-- C3 (amended): for b in [1000, 1000000) the output is the one-decimal
rendering of b/1000 suffixed `K`; b/1000 itself lies in [1.0, 1000.0), but
the decimal value the rendered string denotes lies in [1.0, 1000.0] —
closed at 1000.0, which is reached by rounding (see the counterexample). -/
theorem claim_C3_amended (b : ℕ) (h1 : 1000 ≤ b) (h2 : b < 1000000) (s : String) :
    _sizeof (b : ℚ) s = fmt1 ((b : ℚ) / 1000) ++ "K" ++ s ∧
      1 ≤ (b : ℚ) / 1000 ∧ (b : ℚ) / 1000 < 1000 ∧
      1 ≤ rendered1 ((b : ℚ) / 1000) ∧ rendered1 ((b : ℚ) / 1000) ≤ 1000 := by
  have hb1 : (1000 : ℚ) ≤ (b : ℚ) := by exact_mod_cast h1
  have hb2 : (b : ℚ) < 1000000 := by exact_mod_cast h2
  refine ⟨sizeof_midK b h1 h2 s, ?_, ?_, ?_, ?_⟩
  · rw [le_div_iff₀ (by norm_num : (0 : ℚ) < 1000)]; linarith
  · rw [div_lt_iff₀ (by norm_num : (0 : ℚ) < 1000)]; linarith
  all_goals {
    have hx : (10 : ℚ) * ((b : ℚ) / 1000) = (b : ℚ) / 100 := by ring
    have hfl1 : (10 : ℤ) ≤ ⌊(b : ℚ) / 100⌋ := by
      rw [Int.le_floor, le_div_iff₀ (by norm_num : (0 : ℚ) < 100)]
      push_cast
      linarith
    have hfl2 : ⌊(b : ℚ) / 100⌋ < 10000 := by
      rw [Int.floor_lt, div_lt_iff₀ (by norm_num : (0 : ℚ) < 100)]
      push_cast
      linarith
    have hr1 : (10 : ℤ) ≤ rhe ((b : ℚ) / 100) := le_trans hfl1 (floor_le_rhe _)
    have hr2 : rhe ((b : ℚ) / 100) ≤ 10000 :=
      le_trans (rhe_le_floor_add_one _) (by omega)
    unfold rendered1
    rw [hx]
    first
    | (rw [le_div_iff₀ (by norm_num : (0 : ℚ) < 10)]
       have hc : ((10 : ℤ) : ℚ) ≤ (rhe ((b : ℚ) / 100) : ℚ) := by exact_mod_cast hr1
       push_cast at hc ⊢
       linarith)
    | (rw [div_le_iff₀ (by norm_num : (0 : ℚ) < 10)]
       have hc : ((rhe ((b : ℚ) / 100)) : ℚ) ≤ ((10000 : ℤ) : ℚ) := by exact_mod_cast hr2
       push_cast at hc ⊢
       linarith)
  }

/-- C3 counterexample: at byte count 999999 the formatted string is
`"1000.0K"`, whose decimal part denotes 1000, outside [1.0, 1000.0). -/
theorem claim_C3_cex :
    _sizeof ((999999 : ℕ) : ℚ) "" = "1000.0K" ∧
      ¬ rendered1 (((999999 : ℕ) : ℚ) / 1000) < 1000 := by
  have hcast : ((999999 : ℕ) : ℚ) = (999999 : ℚ) := by norm_num
  have hx : (10 : ℚ) * ((999999 : ℚ) / 1000) = (999999 : ℚ) / 100 := by ring
  have hf : ⌊(999999 : ℚ) / 100⌋ = 9999 := by norm_num
  have hrhe : rhe ((999999 : ℚ) / 100) = 10000 := by
    unfold rhe
    rw [hf]
    norm_num
  have hfmt : fmt1 ((999999 : ℚ) / 1000) = "1000.0" := by
    simp only [fmt1, hx, hrhe]
    norm_num [natFmt1]
    decide
  constructor
  · have h := sizeof_midK 999999 (by norm_num) (by norm_num) ""
    rw [hcast] at h ⊢
    rw [h, hfmt]
    decide
  · rw [hcast]
    unfold rendered1
    rw [hx, hrhe]
    norm_num

/-- Witness for C3 (amended) at b = 1500. -/
theorem claim_C3_witness :
    (1000 : ℕ) ≤ 1500 ∧ (1500 : ℕ) < 1000000 ∧
      (_sizeof ((1500 : ℕ) : ℚ) "" = fmt1 (((1500 : ℕ) : ℚ) / 1000) ++ "K" ++ "" ∧
        1 ≤ ((1500 : ℕ) : ℚ) / 1000 ∧ ((1500 : ℕ) : ℚ) / 1000 < 1000 ∧
        1 ≤ rendered1 (((1500 : ℕ) : ℚ) / 1000) ∧
        rendered1 (((1500 : ℕ) : ℚ) / 1000) ≤ 1000) :=
  ⟨by norm_num, by norm_num, claim_C3_amended 1500 (by norm_num) (by norm_num) ""⟩

/-! ## Supporting lemmas: table renderer -/

/-- C8: rendering an empty table fails (Python `max()` of an empty sequence
raises `ValueError`, modelled by `none`); no rendered table is ever
returned for empty input. -/
theorem claim_C8 : _tabulate [] = none := rfl

theorem mk_data (l : List Char) : (String.mk l).data = l := rfl

theorem mk_length (l : List Char) : (String.mk l).length = l.length := rfl

theorem nl_data : ("\n" : String).data = ['\n'] := rfl

theorem splitNl_ne_nil (cs : List Char) : splitNl cs ≠ [] := by
  induction cs with
  | nil => simp [splitNl]
  | cons c rest ih =>
    rw [splitNl]
    split_ifs
    · simp
    · match h : splitNl rest with
      | [] => simp
      | hh :: tt => simp

theorem splitNl_eq_single (cs : List Char) (h : '\n' ∉ cs) : splitNl cs = [cs] := by
  induction cs with
  | nil => rfl
  | cons c rest ih =>
    have hc : c ≠ '\n' := fun hcc => h (hcc ▸ List.mem_cons_self c rest)
    have hr : '\n' ∉ rest := fun hm => h (List.mem_cons_of_mem c hm)
    rw [splitNl, if_neg hc, ih hr]

theorem splitNl_append_cons (xs ys : List Char) (h : '\n' ∉ xs) :
    splitNl (xs ++ '\n' :: ys) = xs :: splitNl ys := by
  induction xs with
  | nil =>
    rw [List.nil_append, splitNl, if_pos rfl]
  | cons c rest ih =>
    have hc : c ≠ '\n' := fun hcc => h (hcc ▸ List.mem_cons_self c rest)
    have hr : '\n' ∉ rest := fun hm => h (List.mem_cons_of_mem c hm)
    rw [List.cons_append, splitNl, if_neg hc, ih hr]

theorem linesOf_joinLines (ls : List String) (hne : ls ≠ [])
    (h : ∀ l ∈ ls, '\n' ∉ l.data) : linesOf (joinLines ls) = ls := by
  induction ls with
  | nil => exact absurd rfl hne
  | cons l rest ih =>
    match rest with
    | [] =>
      simp only [joinLines, linesOf]
      rw [splitNl_eq_single l.data (h l (List.mem_cons_self l []))]
      simp
    | l2 :: rest2 =>
      have hdata : (joinLines (l :: l2 :: rest2)).data =
          l.data ++ '\n' :: (joinLines (l2 :: rest2)).data := by
        show (l ++ "\n" ++ joinLines (l2 :: rest2)).data = _
        simp [String.data_append, nl_data]
      unfold linesOf
      rw [hdata, splitNl_append_cons l.data _ (h l (List.mem_cons_self l _))]
      have ihh := ih (by simp) (fun x hx => h x (List.mem_cons_of_mem l hx))
      unfold linesOf at ihh
      simp only [List.map_cons, ihh]

theorem foldl_max_init_le (l : List String) (init : ℕ) :
    init ≤ l.foldl (fun m s => max m s.length) init := by
  induction l generalizing init with
  | nil => simp
  | cons hd t ih =>
    simp only [List.foldl_cons]
    exact le_trans (le_max_left _ _) (ih (max init hd.length))

theorem foldl_max_mem_le (l : List String) (s : String) (h : s ∈ l) :
    ∀ init, s.length ≤ l.foldl (fun m t => max m t.length) init := by
  induction l with
  | nil => cases h
  | cons hd t ih =>
    intro init
    simp only [List.foldl_cons]
    rcases List.mem_cons.1 h with rfl | hmem
    · exact le_trans (le_max_right _ _) (foldl_max_init_le t _)
    · exact ih hmem _

theorem maxLen_ge (l : List String) (s : String) (h : s ∈ l) :
    s.length ≤ maxLen l :=
  foldl_max_mem_le l s h 0

theorem padRight_data (s : String) (w : ℕ) :
    (padRight s w).data = s.data ++ List.replicate (w - s.length) ' ' := by
  simp [padRight, String.data_append, mk_data]

theorem padRight_length (s : String) (w : ℕ) (h : s.length ≤ w) :
    (padRight s w).length = w := by
  show (padRight s w).data.length = w
  rw [padRight_data, List.length_append, List.length_replicate]
  show s.length + _ = w
  omega

theorem borderLine_data (a b : ℕ) :
    (borderLine a b).data =
      '+' :: (List.replicate (a + 2) '-' ++
        '+' :: (List.replicate (b + 2) '-' ++ ['+'])) := by
  simp [borderLine, String.data_append, mk_data]

theorem borderLine_nlfree (a b : ℕ) : '\n' ∉ (borderLine a b).data := by
  rw [borderLine_data]
  intro hmem
  simp only [List.mem_cons, List.mem_append, List.mem_replicate] at hmem
  rcases hmem with h1 | h2 | h3 | h4 | h5 <;> simp_all

theorem borderLine_length (a b : ℕ) : (borderLine a b).length = a + b + 7 := by
  show (borderLine a b).data.length = a + b + 7
  rw [borderLine_data]
  simp [List.length_append, List.length_replicate]
  omega

theorem rowLine_data (a b : ℕ) (p : String × String) :
    (rowLine a b p).data =
      '|' :: ' ' :: ((padRight p.1 a).data ++
        ' ' :: '|' :: ' ' :: ((padRight p.2 b).data ++ [' ', '|'])) := by
  simp [rowLine, String.data_append]

theorem rowLine_nlfree (a b : ℕ) (p : String × String)
    (h1 : '\n' ∉ p.1.data) (h2 : '\n' ∉ p.2.data) :
    '\n' ∉ (rowLine a b p).data := by
  rw [rowLine_data]
  intro hmem
  simp only [List.mem_cons, List.mem_append, padRight_data,
    List.mem_replicate] at hmem
  rcases hmem with h | h | h | h | h | h | h <;> simp_all

theorem rowLine_length (a b : ℕ) (p : String × String)
    (h1 : p.1.length ≤ a) (h2 : p.2.length ≤ b) :
    (rowLine a b p).length = a + b + 7 := by
  show (rowLine a b p).data.length = a + b + 7
  rw [rowLine_data]
  simp only [List.length_cons, List.length_append]
  have e1 : (padRight p.1 a).data.length = a := padRight_length p.1 a h1
  have e2 : (padRight p.2 b).data.length = b := padRight_length p.2 b h2
  rw [e1, e2]
  simp
  omega

/-- C6 (amended): for every non-empty table whose labels and values contain
no newline character, the rendered output has exactly rows + 2 displayed
lines, and every line — rows and both borders — has the same total length
(label width + value width + 7). -/
theorem claim_C6_amended (table : List (String × String)) (hne : table ≠ [])
    (hnl : ∀ p ∈ table, '\n' ∉ p.1.data ∧ '\n' ∉ p.2.data) :
    ∃ out, _tabulate table = some out ∧
      (linesOf out).length = table.length + 2 ∧
      ∀ l ∈ linesOf out,
        l.length = maxLen (table.map Prod.fst) + maxLen (table.map Prod.snd) + 7 := by
  obtain ⟨p, ps, rfl⟩ : ∃ p ps, table = p :: ps := by
    cases table with
    | nil => exact absurd rfl hne
    | cons p ps => exact ⟨p, ps, rfl⟩
  refine ⟨_, rfl, ?_⟩
  have hLnl : ∀ l ∈ (borderLine (maxLen ((p :: ps).map Prod.fst))
        (maxLen ((p :: ps).map Prod.snd)) ::
      ((p :: ps).map (rowLine (maxLen ((p :: ps).map Prod.fst))
        (maxLen ((p :: ps).map Prod.snd))) ++
        [borderLine (maxLen ((p :: ps).map Prod.fst))
          (maxLen ((p :: ps).map Prod.snd))])), '\n' ∉ l.data := by
    intro l hl
    rcases List.mem_cons.1 hl with rfl | hl2
    · exact borderLine_nlfree _ _
    rcases List.mem_append.1 hl2 with hl3 | hl4
    · obtain ⟨q, hq, rfl⟩ := List.mem_map.1 hl3
      exact rowLine_nlfree _ _ q (hnl q hq).1 (hnl q hq).2
    · rw [List.mem_singleton.1 hl4]
      exact borderLine_nlfree _ _
  have hlines := linesOf_joinLines _ (by simp) hLnl
  rw [hlines]
  constructor
  · simp
  · intro l hl
    rcases List.mem_cons.1 hl with rfl | hl2
    · exact borderLine_length _ _
    rcases List.mem_append.1 hl2 with hl3 | hl4
    · obtain ⟨q, hq, rfl⟩ := List.mem_map.1 hl3
      exact rowLine_length _ _ q
        (maxLen_ge _ _ (List.mem_map_of_mem Prod.fst hq))
        (maxLen_ge _ _ (List.mem_map_of_mem Prod.snd hq))
    · rw [List.mem_singleton.1 hl4]
      exact borderLine_length _ _

/-- C6 counterexample: a single-row table whose value contains a newline
renders to four displayed lines, not 1 + 2. -/
theorem claim_C6_cex :
    (_tabulate [("a", "b\nc")]).map (fun out => (linesOf out).length) = some 4 ∧
      (4 : ℕ) ≠ 1 + 2 := by
  constructor
  · decide
  · decide

/-- Witness for C6 (amended) on a concrete two-row table. -/
theorem claim_C6_witness :
    (([("shape", "(10, 10)"), ("size", "100")] : List (String × String)) ≠ [] ∧
      ∀ p ∈ ([("shape", "(10, 10)"), ("size", "100")] : List (String × String)),
        '\n' ∉ p.1.data ∧ '\n' ∉ p.2.data) ∧
      ∃ out, _tabulate [("shape", "(10, 10)"), ("size", "100")] = some out ∧
        (linesOf out).length =
          ([("shape", "(10, 10)"), ("size", "100")] : List (String × String)).length + 2 ∧
        ∀ l ∈ linesOf out,
          l.length =
            maxLen (([("shape", "(10, 10)"), ("size", "100")] :
              List (String × String)).map Prod.fst) +
            maxLen (([("shape", "(10, 10)"), ("size", "100")] :
              List (String × String)).map Prod.snd) + 7 :=
  ⟨⟨by decide, by decide⟩, claim_C6_amended _ (by decide) (by decide)⟩

/-! ## Info-table builder claims -/

/-- C7: without the statistics flag the builder produces exactly the four
rows shape, dtype, filesize, size in that order; with the flag it appends
exactly the seven rows min, mean, median, max, zero, nan, inf in that
order, with min/mean/median/max computed over the non-NaN elements and the
zero/nan rows formatted `"<count> (<percent>%)"` with the percent
`100 * count / size` truncated to an integer.  `hfilter` supplies the
non-NaN elements; with none, `nonnan.min()` raises in the source — the
all-NaN case the specification itself leaves undefined. -/
theorem claim_C7 (arr : NpyArr) (x : NVal) (xs : List NVal)
    (hfilter : arr.data.filter (fun v => !(nvIsNaN v)) = x :: xs) :
    _array_info_table arr false = some (baseTable arr) ∧
    (baseTable arr).map Prod.fst = ["shape", "dtype", "filesize", "size"] ∧
    _array_info_table arr true = some (baseTable arr ++
      [("min", fmt3e (nvMin (x :: xs))),
       ("mean", fmt3e (nvMean (x :: xs))),
       ("median", fmt3e (nvMedian (x :: xs))),
       ("max", fmt3e (nvMax (x :: xs))),
       ("zero", toString (nvCountZero arr) ++ " (" ++
          toString (100 * nvCountZero arr / arr.size) ++ "%)"),
       ("nan", toString (nvCountNaN arr) ++ " (" ++
          toString (100 * nvCountNaN arr / arr.size) ++ "%)"),
       ("inf", toString (nvCountInf arr))]) ∧
    ([("min", fmt3e (nvMin (x :: xs))),
      ("mean", fmt3e (nvMean (x :: xs))),
      ("median", fmt3e (nvMedian (x :: xs))),
      ("max", fmt3e (nvMax (x :: xs))),
      ("zero", toString (nvCountZero arr) ++ " (" ++
         toString (100 * nvCountZero arr / arr.size) ++ "%)"),
      ("nan", toString (nvCountNaN arr) ++ " (" ++
         toString (100 * nvCountNaN arr / arr.size) ++ "%)"),
      ("inf", toString (nvCountInf arr))] :
        List (String × String)).map Prod.fst =
      ["min", "mean", "median", "max", "zero", "nan", "inf"] := by
  refine ⟨rfl, rfl, ?_, rfl⟩
  simp only [_array_info_table, hfilter, if_true]

/-- A concrete 2×2 array with one NaN element, exercising the statistics
path. -/
def arrC7 : NpyArr :=
  ⟨[2, 2], "float64", 8, [NVal.fin 0, NVal.fin 1, NVal.nan, NVal.fin 3],
    "[[ 0.  1.] [nan  3.]]", by decide⟩

/-- Witness for C7 on a concrete 2x2 array containing a NaN. -/
theorem claim_C7_witness :
    arrC7.data.filter (fun v => !(nvIsNaN v)) =
        NVal.fin 0 :: [NVal.fin 1, NVal.fin 3] ∧
      (_array_info_table arrC7 false = some (baseTable arrC7) ∧
       (baseTable arrC7).map Prod.fst = ["shape", "dtype", "filesize", "size"] ∧
       _array_info_table arrC7 true = some (baseTable arrC7 ++
         [("min", fmt3e (nvMin (NVal.fin 0 :: [NVal.fin 1, NVal.fin 3]))),
          ("mean", fmt3e (nvMean (NVal.fin 0 :: [NVal.fin 1, NVal.fin 3]))),
          ("median", fmt3e (nvMedian (NVal.fin 0 :: [NVal.fin 1, NVal.fin 3]))),
          ("max", fmt3e (nvMax (NVal.fin 0 :: [NVal.fin 1, NVal.fin 3]))),
          ("zero", toString (nvCountZero arrC7) ++ " (" ++
             toString (100 * nvCountZero arrC7 / arrC7.size) ++ "%)"),
          ("nan", toString (nvCountNaN arrC7) ++ " (" ++
             toString (100 * nvCountNaN arrC7 / arrC7.size) ++ "%)"),
          ("inf", toString (nvCountInf arrC7))]) ∧
       ([("min", fmt3e (nvMin (NVal.fin 0 :: [NVal.fin 1, NVal.fin 3]))),
         ("mean", fmt3e (nvMean (NVal.fin 0 :: [NVal.fin 1, NVal.fin 3]))),
         ("median", fmt3e (nvMedian (NVal.fin 0 :: [NVal.fin 1, NVal.fin 3]))),
         ("max", fmt3e (nvMax (NVal.fin 0 :: [NVal.fin 1, NVal.fin 3]))),
         ("zero", toString (nvCountZero arrC7) ++ " (" ++
            toString (100 * nvCountZero arrC7 / arrC7.size) ++ "%)"),
         ("nan", toString (nvCountNaN arrC7) ++ " (" ++
            toString (100 * nvCountNaN arrC7 / arrC7.size) ++ "%)"),
         ("inf", toString (nvCountInf arrC7))] :
           List (String × String)).map Prod.fst =
         ["min", "mean", "median", "max", "zero", "nan", "inf"]) :=
  ⟨by decide, claim_C7 arrC7 _ _ (by decide)⟩

/-- C1 (amended): the filesize row of a 10×10 array of 8-byte elements has
value `"800.0"` — `_array_info_table` calls the Size Formatter with its
default empty suffix, so no `B` appears. -/
theorem claim_C1_amended (arr : NpyArr) (h1 : arr.shape = [10, 10])
    (h2 : arr.itemsize = 8) :
    _array_info_table arr false = some (baseTable arr) ∧
      (baseTable arr)[2]? = some ("filesize", "800.0") := by
  refine ⟨rfl, ?_⟩
  have hsz : arr.size = 100 := by
    rw [NpyArr.size, h1]
    decide
  have hval : _sizeof ((arr.size * arr.itemsize : ℕ) : ℚ) = "800.0" := by
    rw [hsz, h2]
    rw [show ((100 * 8 : ℕ) : ℚ) = ((800 : ℕ) : ℚ) by norm_num]
    rw [sizeof_small 800 (by norm_num) ""]
    decide
  simp only [baseTable, hval]
  rfl

/-- A concrete 10×10 array of zeros with 8-byte elements. -/
def arrC1 : NpyArr :=
  ⟨[10, 10], "float64", 8, List.replicate 100 (NVal.fin 0),
    "[[0. 0. ... 0. 0.]]", by decide⟩

/-- C1 counterexample: on a concrete 10×10 8-byte array the filesize row
value is `"800.0"`, which differs from the claimed `"800.0B"`. -/
theorem claim_C1_cex :
    (_array_info_table arrC1 false).map (fun t => t[2]?) =
        some (some ("filesize", "800.0")) ∧
      ("800.0" : String) ≠ "800.0B" := by
  constructor
  · have hbase : _array_info_table arrC1 false = some (baseTable arrC1) := rfl
    have hval : _sizeof ((arrC1.size * arrC1.itemsize : ℕ) : ℚ) = "800.0" := by
      rw [show arrC1.size * arrC1.itemsize = 800 from by decide]
      rw [sizeof_small 800 (by norm_num) ""]
      decide
    rw [hbase, Option.map_some']
    simp only [baseTable, hval]
    rfl
  · decide

/-- Witness for C1 (amended) on the concrete 10×10 array. -/
theorem claim_C1_witness :
    arrC1.shape = [10, 10] ∧ arrC1.itemsize = 8 ∧
      (_array_info_table arrC1 false = some (baseTable arrC1) ∧
        (baseTable arrC1)[2]? = some ("filesize", "800.0")) :=
  ⟨by decide, by decide, claim_C1_amended arrC1 (by decide) (by decide)⟩

/-! ## Inspector-loop claims -/

theorem perFileLines_mem_path (o : ShowOpts) (f : String × NpyArr)
    (ls : List String) (h : perFileLines o f = some ls) : f.1 ∈ ls := by
  unfold perFileLines at h
  cases ht : _array_info_table f.2 o.showStats with
  | none =>
    rw [ht] at h
    simp at h
  | some t =>
    rw [ht] at h
    simp only [Option.some_bind] at h
    cases htab : _tabulate t with
    | none =>
      rw [htab] at h
      simp at h
    | some r =>
      rw [htab] at h
      simp at h
      rw [← h]
      simp

/-- C9: paths not ending in `.npy` are skipped silently — they contribute
no output lines and their loading code never runs — while every `.npy`
path in the same list is processed in order and its output, beginning with
the path itself, is printed.  The hypothesis `hok` says each processed
file's table builds without raising; it holds automatically whenever
`showStats = false` (the default) and in any run the command survives. -/
theorem claim_C9 (o : ShowOpts) (files : List (String × NpyArr))
    (hok : ∀ f ∈ files, pathEndsWith f.1 ".npy" = true →
      (perFileLines o f).isSome) :
    npyshowRun o files =
      ((files.filter (fun f => pathEndsWith f.1 ".npy")).flatMap
        (fun f => (perFileLines o f).getD []), true) ∧
      ∀ f ∈ files, pathEndsWith f.1 ".npy" = true →
        f.1 ∈ (npyshowRun o files).1 := by
  have hrun : npyshowRun o files =
      ((files.filter (fun f => pathEndsWith f.1 ".npy")).flatMap
        (fun f => (perFileLines o f).getD []), true) := by
    induction files with
    | nil => rfl
    | cons f rest ih =>
      have hok' : ∀ g ∈ rest, pathEndsWith g.1 ".npy" = true →
          (perFileLines o g).isSome :=
        fun g hg => hok g (List.mem_cons_of_mem f hg)
      by_cases hf : pathEndsWith f.1 ".npy" = true
      · obtain ⟨ls, hls⟩ :=
          Option.isSome_iff_exists.1 (hok f (List.mem_cons_self f rest) hf)
        simp only [npyshowRun, hf, if_true, hls, ih hok', List.filter_cons,
          List.flatMap_cons, Option.getD_some]
      · simp only [npyshowRun, hf, if_false, ih hok', List.filter_cons,
          Bool.false_eq_true]
  refine ⟨hrun, ?_⟩
  intro f hf hnpy
  rw [hrun]
  obtain ⟨ls, hls⟩ := Option.isSome_iff_exists.1 (hok f hf hnpy)
  apply List.mem_flatMap.2
  refine ⟨f, ?_, ?_⟩
  · exact List.mem_filter.2 ⟨hf, hnpy⟩
  · rw [hls]
    exact perFileLines_mem_path o f ls hls

/-- A `.npy` sibling for the C9 witness. -/
def arrC9 : NpyArr := ⟨[2], "int64", 8, [NVal.fin 1, NVal.fin 2], "[1 2]", by decide⟩

/-- A non-`.npy` file for the C9 witness (its content is never looked at). -/
def arrC9b : NpyArr := ⟨[1], "int64", 8, [NVal.fin 7], "[7]", by decide⟩

/-- Witness for C9 on a mixed list with a `.txt` and a `.npy` path. -/
theorem claim_C9_witness :
    (∀ f ∈ ([("notes.txt", arrC9b), ("a.npy", arrC9)] :
        List (String × NpyArr)),
      pathEndsWith f.1 ".npy" = true →
        (perFileLines ⟨2, true, false⟩ f).isSome) ∧
      (npyshowRun ⟨2, true, false⟩ [("notes.txt", arrC9b), ("a.npy", arrC9)] =
        ((([("notes.txt", arrC9b), ("a.npy", arrC9)] :
            List (String × NpyArr)).filter
              (fun f => pathEndsWith f.1 ".npy")).flatMap
          (fun f => (perFileLines ⟨2, true, false⟩ f).getD []), true) ∧
       ∀ f ∈ ([("notes.txt", arrC9b), ("a.npy", arrC9)] :
           List (String × NpyArr)),
         pathEndsWith f.1 ".npy" = true →
           f.1 ∈ (npyshowRun ⟨2, true, false⟩
             [("notes.txt", arrC9b), ("a.npy", arrC9)]).1) :=
  ⟨by decide, claim_C9 ⟨2, true, false⟩ _ (by decide)⟩

/-- C10: invoked with an empty list of paths, the Inspector's per-path loop
body never runs: no output lines, no loads, and it completes successfully. -/
theorem claim_C10 (o : ShowOpts) : npyshowRun o [] = ([], true) := rfl

/-! ## Visualizer rank-2 claims -/

/-- C2 (amended): on a squeezed rank-2 array with `m = min(shape) = 2` the
Visualizer draws the x-y plot of column 0 against column 1 AND then also
renders the reshaped array as a 2-D image, because the `m == 2` branch is
followed by an independent `if 3 <= m <= 5 / else` whose `else` fires for
`m = 2`. -/
theorem claim_C2_amended (shape : List ℕ) (data : List NVal) (a b : ℕ)
    (hsq : shape.filter (fun d => d ≠ 1) = [a, b]) (hmin : min a b = 2) :
    npyplotActions shape data =
      [PlotAction.xyPlot (col 2 0 data) (col 2 1 data),
       PlotAction.image2D (asRows 2 data)] := by
  unfold npyplotActions
  rw [hsq]
  simp only [List.length_cons, List.length_nil, List.getD]
  norm_num [hmin]

/-- C2 counterexample: a squeezed rank-2 array of shape (3, 2); the action
list contains the 2-D image render after the x-y plot, refuting the no
image render part of the claim. -/
theorem claim_C2_cex :
    npyplotActions [3, 2]
        [NVal.fin 0, NVal.fin 1, NVal.fin 2, NVal.fin 3, NVal.fin 4, NVal.fin 5] =
      [PlotAction.xyPlot [NVal.fin 0, NVal.fin 2, NVal.fin 4]
          [NVal.fin 1, NVal.fin 3, NVal.fin 5],
       PlotAction.image2D [[NVal.fin 0, NVal.fin 1], [NVal.fin 2, NVal.fin 3],
          [NVal.fin 4, NVal.fin 5]]] ∧
      PlotAction.image2D [[NVal.fin 0, NVal.fin 1], [NVal.fin 2, NVal.fin 3],
          [NVal.fin 4, NVal.fin 5]] ∈
        npyplotActions [3, 2]
          [NVal.fin 0, NVal.fin 1, NVal.fin 2, NVal.fin 3, NVal.fin 4, NVal.fin 5] := by
  constructor <;> decide

/-- Witness for C2 (amended) on a shape that squeezes to (5, 2). -/
theorem claim_C2_witness :
    ([5, 1, 2] : List ℕ).filter (fun d => d ≠ 1) = [5, 2] ∧ min 5 2 = 2 ∧
      npyplotActions [5, 1, 2] (List.replicate 10 (NVal.fin 1)) =
        [PlotAction.xyPlot (col 2 0 (List.replicate 10 (NVal.fin 1)))
           (col 2 1 (List.replicate 10 (NVal.fin 1))),
         PlotAction.image2D (asRows 2 (List.replicate 10 (NVal.fin 1)))] :=
  ⟨by decide, by decide, claim_C2_amended _ _ 5 2 (by decide) (by decide)⟩
